import Mathlib

/-!
Shallow embedding of the slot-inventory reservation engine of
`availability_manager.py` (tee-time booking system).

The database state is modelled as two lists of records mirroring the two
Postgres tables created in `app.py`:

  * `bookings (booking_id UNIQUE NOT NULL, date DATE, tee_time VARCHAR,
     players INTEGER, status VARCHAR NOT NULL, club VARCHAR, ...)`
  * `tee_times (id SERIAL PRIMARY KEY, club NOT NULL, date NOT NULL,
     time NOT NULL, max_players INTEGER DEFAULT 4,
     available_slots INTEGER DEFAULT 4, is_available BOOLEAN DEFAULT TRUE,
     UNIQUE(club, date, time))`

Audit-only columns (timestamps, `updated_by`, `green_fee`, `notes`, ...) are
omitted: no control flow of the embedded functions reads them.  Integer
columns are modelled as `Int`; columns the code explicitly reads defensively
(`booking['players'] or 1`, the nullable `date` / `tee_time` / `club` booking
fields) are modelled as `Option`.  Each SQL statement of the source is
embedded as its own Lean function (returning the updated table and, where the
source inspects it, the matched-row count), and each Python function as a
Lean function threading the state explicitly; a `rollback` is embedded by
returning the state the function was entered with.
-/

/-- One row of the `bookings` table (fields the manager reads). -/
structure Booking where
  booking_id : String
  date : Option String
  tee_time : Option String
  players : Option Int
  status : String
  club : Option String
  deriving Repr, DecidableEq

/-- One row of the `tee_times` table (fields the manager reads). -/
structure TeeTime where
  id : Nat
  club : String
  date : String
  time : String
  max_players : Int
  available_slots : Int
  is_available : Bool
  deriving Repr, DecidableEq

/-- The two tables the manager mutates. -/
structure DB where
  bookings : List Booking
  teeTimes : List TeeTime
  deriving Repr, DecidableEq

/-- `SLOT_RESERVING_STATUSES = ['Confirmed', 'Booked']`. -/
def SLOT_RESERVING_STATUSES : List String := ["Confirmed", "Booked"]

/-- `NON_RESERVING_STATUSES = ['Inquiry', 'Pending', 'Requested', 'Rejected', 'Cancelled']`. -/
def NON_RESERVING_STATUSES : List String :=
  ["Inquiry", "Pending", "Requested", "Rejected", "Cancelled"]

/-- `os.getenv("DEFAULT_COURSE_ID", "royalportrush")`: the environment
variable is modelled as unset, so the default applies. -/
def DEFAULT_COURSE_ID : String := "royalportrush"

/-- Python `x or d` on an optional integer: `None` and `0` are falsy. -/
def pyOrInt (x : Option Int) (d : Int) : Int :=
  match x with
  | none => d
  | some n => if n = 0 then d else n

/-- Python `x or d` on an optional string: `None` and `""` are falsy. -/
def pyOrStr (x : Option String) (d : String) : String :=
  match x with
  | none => d
  | some s => if s = "" then d else s

/-- Python truthiness of an optional string (`if not x`). -/
def pyTruthyStr (x : Option String) : Bool :=
  match x with
  | none => false
  | some s => !(s == "")

/-- The regex `(\d{1,2}:\d{2})` tried at the head of the character list:
greedily two digits, else one digit, then `:`, then two digits. -/
def timeMatchAt (cs : List Char) : Option (List Char) :=
  match cs with
  | c0 :: c1 :: c2 :: c3 :: rest =>
    if c0.isDigit then
      if c1.isDigit then
        match rest with
        | c4 :: _ =>
          if c2 = ':' && c3.isDigit && c4.isDigit then some [c0, c1, c2, c3, c4] else none
        | [] => none
      else if c1 = ':' && c2.isDigit && c3.isDigit then some [c0, c1, c2, c3]
      else none
    else none
  | _ => none

/-- `re.search`: first position (left to right) where the pattern matches. -/
def searchTime : List Char → Option (List Char)
  | [] => none
  | c :: cs =>
    match timeMatchAt (c :: cs) with
    | some m => some m
    | none => searchTime cs

/-- Python `str.strip()`: drop leading and trailing whitespace. -/
def pyStrip (s : String) : String :=
  String.mk (((s.toList.dropWhile Char.isWhitespace).reverse.dropWhile
    Char.isWhitespace).reverse)

/-- `AvailabilityManager._normalize_time` on a string: return unchanged if
falsy, else strip and extract the first `HH:MM` occurrence. -/
def normalize_time (time_str : String) : String :=
  if time_str = "" then time_str
  else
    let stripped := pyStrip time_str
    match searchTime stripped.toList with
    | some m => String.mk m
    | none => stripped

/-- `_normalize_time` applied to a nullable column (`None` is falsy and is
returned unchanged). -/
def normalizeTimeOpt : Option String → Option String
  | none => none
  | some s => some (normalize_time s)

/-- `AvailabilityManager._normalize_date` on a nullable column already stored
as text: the `isinstance(str)` branch returns it unchanged; on `None` the
final `str(date_input)` branch produces the literal string `"None"`. -/
def normalizeDateOpt : Option String → String
  | some s => s
  | none => "None"

/-- `SELECT ... FROM bookings WHERE booking_id = %s` (first matching row). -/
def findBooking (db : DB) (booking_id : String) : Option Booking :=
  db.bookings.find? (fun b => b.booking_id == booking_id)

/-- `SELECT ... FROM tee_times WHERE club = %s AND date = %s AND time = %s`. -/
def findTeeTime (tts : List TeeTime) (club date time : String) : Option TeeTime :=
  tts.find? (fun t => t.club == club && t.date == date && t.time == time)

/-- The same `SELECT` with a nullable `time` parameter: `time = NULL`
matches no row in SQL. -/
def findTeeTimeOpt (tts : List TeeTime) (club date : String) :
    Option String → Option TeeTime
  | none => none
  | some time => findTeeTime tts club date time

/-- The dictionary built by `check_slot_availability` (the fields
`confirm_booking` and `can_confirm_booking` consume). -/
structure Availability where
  available : Bool
  available_slots : Int
  max_players : Int
  can_accommodate : Bool
  tee_time_id : Option Nat
  requested_players : Int
  deriving Repr, DecidableEq

/-- `AvailabilityManager.check_slot_availability`.  In the slot-not-found
branch the source dict carries no `requested_players` key and
`confirm_booking` reads it with `.get('requested_players', 1)`; that default
is stored here directly. -/
def check_slot_availability (db : DB) (requested_date requested_time : String)
    (num_players : Int) (club_id : String) : Availability :=
  let date_str := requested_date
  let time_str := normalize_time requested_time
  match findTeeTime db.teeTimes club_id date_str time_str with
  | none =>
    { available := false, available_slots := 0, max_players := 0,
      can_accommodate := false, tee_time_id := none, requested_players := 1 }
  | some slot =>
    let available := if slot.available_slots = 0 then 0 else slot.available_slots
    let maxp := if slot.max_players = 0 then 4 else slot.max_players
    { available := slot.is_available && decide (0 < available),
      available_slots := available,
      max_players := maxp,
      can_accommodate := slot.is_available && decide (num_players ≤ available),
      tee_time_id := some slot.id,
      requested_players := num_players }

/-- The statuses from which the confirm path may move a booking. -/
def confirmExpected : List String := ["Requested", "Inquiry", "Pending"]

/-- `AvailabilityManager.can_confirm_booking` (the `{}` dicts of the failure
branches are modelled as `none`). -/
def can_confirm_booking (db : DB) (booking_id : String) :
    Bool × String × Option Availability :=
  match findBooking db booking_id with
  | none => (false, "Booking not found", none)
  | some booking =>
    let current_status := booking.status
    if SLOT_RESERVING_STATUSES.contains current_status then
      (false, "Booking is already " ++ current_status, none)
    else if !(confirmExpected.contains current_status) then
      (false, "Cannot confirm booking with status " ++ current_status, none)
    else
      let players := pyOrInt booking.players 1
      if !(pyTruthyStr booking.date) || !(pyTruthyStr booking.tee_time) then
        (false, "Booking has no date or time set", none)
      else
        let availability := check_slot_availability db (booking.date.getD "")
          (booking.tee_time.getD "") players (pyOrStr booking.club DEFAULT_COURSE_ID)
        if availability.can_accommodate then
          (true, "Slot available - " ++ toString availability.available_slots
            ++ " spots remaining", some availability)
        else if availability.tee_time_id = none then
          (false, "Tee time slot does not exist in system", some availability)
        else
          (false, "Only " ++ toString availability.available_slots
            ++ " spots available, need " ++ toString players, some availability)

/-- `UPDATE bookings SET status = 'Confirmed' WHERE booking_id = %s AND
status IN ('Requested', 'Inquiry', 'Pending')` generalised to its
parameters; returns the updated table and `cur.rowcount`. -/
def updateBookingsStatusIn (bs : List Booking) (booking_id new_status : String)
    (expected : List String) : List Booking × Nat :=
  (bs.map (fun b =>
      if b.booking_id == booking_id && expected.contains b.status then
        { b with status := new_status } else b),
   (bs.filter (fun b =>
      b.booking_id == booking_id && expected.contains b.status)).length)

/-- `UPDATE bookings SET status = %s WHERE booking_id = %s` — the
unconditional status write of the release and plain paths (its `rowcount`
is returned but never inspected by the source). -/
def bookingsSetStatus (bs : List Booking) (booking_id new_status : String) :
    List Booking × Nat :=
  (bs.map (fun b =>
      if b.booking_id == booking_id then { b with status := new_status } else b),
   (bs.filter (fun b => b.booking_id == booking_id)).length)

/-- `UPDATE tee_times SET available_slots = available_slots - %s,
is_available = CASE WHEN available_slots - %s <= 0 THEN FALSE ELSE TRUE END
WHERE id = %s AND available_slots >= %s` — the guarded decrement; a null
`tee_time_id` (`id = NULL`) matches no row. -/
def decrementTeeTimes (tts : List TeeTime) (tee_time_id : Option Nat)
    (players : Int) : List TeeTime × Nat :=
  match tee_time_id with
  | none => (tts, 0)
  | some tid =>
    (tts.map (fun t =>
        if t.id == tid && decide (players ≤ t.available_slots) then
          { t with available_slots := t.available_slots - players,
                   is_available := !(decide (t.available_slots - players ≤ 0)) }
        else t),
     (tts.filter (fun t =>
        t.id == tid && decide (players ≤ t.available_slots))).length)

/-- `UPDATE tee_times SET available_slots = LEAST(available_slots + %s,
max_players), is_available = TRUE WHERE id = %s` — the unguarded, clamped
increment of the release path. -/
def incrementTeeTimes (tts : List TeeTime) (tee_time_id : Nat)
    (players : Int) : List TeeTime :=
  tts.map (fun t =>
    if t.id == tee_time_id then
      { t with available_slots := min (t.available_slots + players) t.max_players,
               is_available := true }
    else t)

/-- The failure message of the guarded slot decrement. -/
def slotRaceMsg : String :=
  "Failed to update tee time slots - may have been booked by someone else"

/-- The failure message of the conditional booking-status write of the
confirm path. -/
def bookingNoMatchMsg : String := "Booking not found or already confirmed"

/-- The write phase of `confirm_booking` (everything inside the
`with conn.cursor()` transaction): the conditional booking-status update
followed by the guarded slot decrement; a zero row count at either step
rolls the whole unit back (the entry state is returned unchanged).
`snapshot_available` is the `available_slots` value read earlier, used only
in the success message. -/
def confirmTxn (db : DB) (booking_id : String) (tee_time_id : Option Nat)
    (players snapshot_available : Int) : Bool × String × DB :=
  let r1 := updateBookingsStatusIn db.bookings booking_id "Confirmed" confirmExpected
  if r1.2 = 0 then (false, bookingNoMatchMsg, db)
  else
    let r2 := decrementTeeTimes db.teeTimes tee_time_id players
    if r2.2 = 0 then (false, slotRaceMsg, db)
    else
      (true, "Booking confirmed! " ++ toString (snapshot_available - players)
        ++ " spots remaining for this time.",
       { bookings := r1.1, teeTimes := r2.1 })

/-- `AvailabilityManager.confirm_booking` (`confirmed_by` feeds only the
omitted audit columns and is dropped). -/
def confirm_booking (db : DB) (booking_id : String) : Bool × String × DB :=
  let r := can_confirm_booking db booking_id
  if !r.1 then (false, r.2.1, db)
  else
    let tee_time_id := r.2.2.bind (fun a => a.tee_time_id)
    let players := match r.2.2 with | some a => a.requested_players | none => 1
    let snap := match r.2.2 with | some a => a.available_slots | none => 0
    confirmTxn db booking_id tee_time_id players snap

/-- The write phase of the slot-releasing branch of `release_booking_slot`:
the unconditional booking-status update followed by the clamped slot
increment, committed together.  `snapshot_available` / `maxp` are the values
read earlier, used only in the success message. -/
def releaseCommit (db : DB) (booking_id new_status : String) (tee_time_id : Nat)
    (players snapshot_available maxp : Int) : Bool × String × DB :=
  let r1 := bookingsSetStatus db.bookings booking_id new_status
  let tts1 := incrementTeeTimes db.teeTimes tee_time_id players
  (true, "Slot released! " ++ toString (min (snapshot_available + players) maxp)
    ++ " spots now available.",
   { bookings := r1.1, teeTimes := tts1 })

/-- `AvailabilityManager.release_booking_slot` (`released_by` feeds only the
omitted audit columns and is dropped). -/
def release_booking_slot (db : DB) (booking_id : String)
    (new_status : String) : Bool × String × DB :=
  match findBooking db booking_id with
  | none => (false, "Booking not found", db)
  | some booking =>
    if !(SLOT_RESERVING_STATUSES.contains booking.status) then
      let r1 := bookingsSetStatus db.bookings booking_id new_status
      (true, "Status changed to " ++ new_status, { db with bookings := r1.1 })
    else
      let players := pyOrInt booking.players 1
      let booking_time := normalizeTimeOpt booking.tee_time
      let club_id := pyOrStr booking.club DEFAULT_COURSE_ID
      let date_str := normalizeDateOpt booking.date
      match findTeeTimeOpt db.teeTimes club_id date_str booking_time with
      | none =>
        let r1 := bookingsSetStatus db.bookings booking_id new_status
        (true, "Status changed to " ++ new_status ++ " (no tee time record to update)",
         { db with bookings := r1.1 })
      | some tee_time =>
        releaseCommit db booking_id new_status tee_time.id players
          tee_time.available_slots tee_time.max_players

/-- `update_booking_status_with_availability` (the dashboard entry point).
An empty-string current status is falsy in Python and reported as
"Booking not found", exactly as a missing row is. -/
def update_booking_status_with_availability (db : DB)
    (booking_id new_status : String) : Bool × String × DB :=
  let current_status? := (findBooking db booking_id).map (fun b => b.status)
  if !(pyTruthyStr current_status?) then (false, "Booking not found", db)
  else
    let current_status := current_status?.getD ""
    if new_status == "Confirmed"
        && !(SLOT_RESERVING_STATUSES.contains current_status) then
      confirm_booking db booking_id
    else if SLOT_RESERVING_STATUSES.contains current_status
        && !(SLOT_RESERVING_STATUSES.contains new_status) then
      release_booking_slot db booking_id new_status
    else
      let r1 := bookingsSetStatus db.bookings booking_id new_status
      (true, "Status updated to " ++ new_status, { db with bookings := r1.1 })

/-- The slot key a booking resolves to: club (defaulted), normalized date,
normalized time — the key both the confirm path (via
`check_slot_availability`) and the release path look up. -/
def slotFor (db : DB) (b : Booking) : Option TeeTime :=
  findTeeTimeOpt db.teeTimes (pyOrStr b.club DEFAULT_COURSE_ID)
    (normalizeDateOpt b.date) (normalizeTimeOpt b.tee_time)

/-- The player count a booking consumes: `booking['players'] or 1`. -/
def bookingCount (b : Booking) : Int := pyOrInt b.players 1

/-- The player count the confirm path decrements for a booking id (1 when
the booking is absent, mirroring the `.get` defaults). -/
def confirmPlayers (db : DB) (booking_id : String) : Int :=
  match findBooking db booking_id with
  | none => 1
  | some b => bookingCount b

/-- Well-formed state: the `UNIQUE` constraints of the schema —
`booking_id` unique in `bookings`, `id` (primary key) and
`(club, date, time)` unique in `tee_times`. -/
def WF (db : DB) : Prop :=
  (db.bookings.map (fun b => b.booking_id)).Nodup ∧
  (db.teeTimes.map (fun t => t.id)).Nodup ∧
  (db.teeTimes.map (fun t => (t.club, t.date, t.time))).Nodup

instance (db : DB) : Decidable (WF db) := by
  unfold WF; infer_instance

/-- The spec's §3 relationship invariant, stated over the embedding: a booking
is linked to the slot row whose key equals the booking's resolved
(club, date, time) key — precisely the lookup key used by the confirm and
release paths. -/
def bookingMatchesSlot (b : Booking) (t : TeeTime) : Bool :=
  pyOrStr b.club DEFAULT_COURSE_ID == t.club && normalizeDateOpt b.date == t.date
    && normalizeTimeOpt b.tee_time == some t.time

/-- The capacity a booking contributes to a slot: its player count when it is
in a reserving status and linked to the slot, else zero. -/
def reservingWeight (t : TeeTime) (b : Booking) : Int :=
  if SLOT_RESERVING_STATUSES.contains b.status && bookingMatchesSlot b t then
    bookingCount b else 0

/-- Total capacity consumed by reserving bookings linked to a slot. -/
def reservedSum (bs : List Booking) (t : TeeTime) : Int :=
  (bs.map (reservingWeight t)).sum

/-- Reservation conservation (spec §3 and §8):
`available_capacity = max_capacity − Σ(players of reserving bookings)`. -/
def ConservationInv (db : DB) : Prop :=
  ∀ t ∈ db.teeTimes, t.available_slots = t.max_players - reservedSum db.bookings t

instance (db : DB) : Decidable (ConservationInv db) := by
  unfold ConservationInv; infer_instance

/-! ## Witness fixtures (the scenario of spec §8: slot `(R1, 2025-11-24,
10:00)`, `max_capacity = 4`) -/

/-- Fixture booking: 3 players, status `Requested`. -/
def bReq : Booking :=
  { booking_id := "B1", date := some "2025-11-24", tee_time := some "10:00",
    players := some 3, status := "Requested", club := none }

/-- Fixture slot: 4 of 4 slots open. -/
def tOpen : TeeTime :=
  { id := 7, club := "royalportrush", date := "2025-11-24", time := "10:00",
    max_players := 4, available_slots := 4, is_available := true }

/-- Fixture state: one `Requested` booking, one open slot. -/
def dbReq : DB := { bookings := [bReq], teeTimes := [tOpen] }

/-- Fixture booking already `Confirmed`. -/
def bConf : Booking := { bReq with status := "Confirmed" }

/-- Fixture state: one `Confirmed` booking, slot with 1 of 4 open. -/
def tConf : TeeTime := { tOpen with available_slots := 1 }

/-- Fixture state: one `Confirmed` booking, slot with 1 of 4 open. -/
def dbConf : DB := { bookings := [bConf], teeTimes := [tConf] }

/-- Fixture state: `Requested` booking for 3, but only 2 slots open. -/
def dbTight : DB :=
  { bookings := [bReq], teeTimes := [{ tOpen with available_slots := 2 }] }

def bNull : Booking := { bReq with players := none, status := "Confirmed" }

def dbNull : DB := { bookings := [bNull], teeTimes := [tOpen] }

def bDup : Booking := { bReq with players := some 2 }

def tHalf : TeeTime := { tOpen with available_slots := 2 }

def dbDup : DB := { bookings := [bDup], teeTimes := [tHalf] }

/-! ## Generic list lemmas -/

/-- A conditional row update that preserves the search key commutes with
`find?` by that key. -/
lemma find?_map_key {α : Type} (g : α → α) (p : α → Bool)
    (hp : ∀ x, p (g x) = p x) (l : List α) :
    (l.map g).find? p = (l.find? p).map g := by
  rw [List.find?_map]
  have hpg : p ∘ g = p := funext hp
  rw [hpg]

/-- A row-wise update that fixes every row of a table is the identity. -/
lemma map_id_of_fix {α : Type} {l : List α} {f : α → α}
    (h : ∀ x ∈ l, f x = x) : l.map f = l := by
  induction l with
  | nil => rfl
  | cons a t ih => simp_all

/-- A `WHERE` clause satisfied by some row of the table matches at least one
row (`cur.rowcount ≠ 0`). -/
lemma filter_length_ne_zero {α : Type} {l : List α} {p : α → Bool} {a : α}
    (ha : a ∈ l) (hpa : p a = true) : (l.filter p).length ≠ 0 := by
  simp only [ne_eq, List.length_eq_zero, List.filter_eq_nil_iff, not_forall]
  exact ⟨a, ha, by simp [hpa]⟩

lemma confirm_booking_of_cannot (db : DB) (bid : String)
    (h : (can_confirm_booking db bid).1 = false) :
    confirm_booking db bid = (false, (can_confirm_booking db bid).2.1, db) := by
  simp [confirm_booking, h]

lemma can_confirm_booking_reserving (db : DB) (bid : String) (b : Booking)
    (hfind : findBooking db bid = some b)
    (hres : b.status ∈ SLOT_RESERVING_STATUSES) :
    can_confirm_booking db bid = (false, "Booking is already " ++ b.status, none) := by
  unfold can_confirm_booking
  rw [hfind]
  simp [hres]

/-- C7: confirming a booking that is already in a reserving status
(`Confirmed` or `Booked`) fails with the already-in-that-status error — not
success — and leaves the entire state, in particular every slot's
`available_slots`, unchanged. -/
theorem confirm_already_reserving (db : DB) (bid : String) (b : Booking)
    (hfind : findBooking db bid = some b)
    (hres : b.status ∈ SLOT_RESERVING_STATUSES) :
    confirm_booking db bid = (false, "Booking is already " ++ b.status, db) := by
  have h1 := can_confirm_booking_reserving db bid b hfind hres
  have h2 := confirm_booking_of_cannot db bid (by rw [h1])
  rw [h2, h1]

/-- C7 witness: re-confirming the `Confirmed` fixture booking fails and
changes nothing. -/
theorem confirm_already_reserving_witness :
    confirm_booking dbConf "B1" = (false, "Booking is already Confirmed", dbConf) :=
  confirm_already_reserving dbConf "B1" bConf (by rfl) (by decide)

/-- C8 (amended): for every status S, a request to change a booking to its
own current status is not rejected: it is routed to the plain-update branch
and applied as a successful status write, returning success and leaving the
state unchanged (the status is overwritten with itself; no slot record is
touched). -/
theorem same_status_change_applies (db : DB) (bid : String) (b : Booking)
    (hwf : WF db) (hfind : findBooking db bid = some b) (hne : b.status ≠ "") :
    update_booking_status_with_availability db bid b.status =
      (true, "Status updated to " ++ b.status, db) := by
  have hb_mem : b ∈ db.bookings := List.mem_of_find?_eq_some hfind
  have hb_id : b.booking_id = bid := by
    have := List.find?_some hfind; simpa using this
  have hmap : (bookingsSetStatus db.bookings bid b.status).1 = db.bookings := by
    simp only [bookingsSetStatus]
    apply map_id_of_fix
    intro x hx
    by_cases hxid : x.booking_id = bid
    · have hxb : x = b := by
        apply List.inj_on_of_nodup_map hwf.1 hx hb_mem
        rw [hxid, hb_id]
      subst hxb
      have hbeq : (x.booking_id == bid) = true := by simp [hxid]
      simp only [hbeq, if_true]
    · simp [hxid]
  unfold update_booking_status_with_availability
  rw [hfind]
  by_cases hc : b.status = "Confirmed"
  · rw [hc] at hmap
    simp [pyTruthyStr, hne, hc, SLOT_RESERVING_STATUSES, hmap]
  · by_cases hb2 : b.status = "Booked"
    · rw [hb2] at hmap
      simp [pyTruthyStr, hne, hc, hb2, SLOT_RESERVING_STATUSES, hmap]
    · simp [pyTruthyStr, hne, hc, hb2, SLOT_RESERVING_STATUSES, hmap]

/-- C8 counterexample: re-entering the current status (`Requested` →
`Requested`) is accepted with success, not rejected as an invalid
transition. -/
theorem same_status_not_rejected_cex :
    update_booking_status_with_availability dbReq "B1" "Requested" =
      (true, "Status updated to Requested", dbReq) := by rfl

/-- C8 witness: a `Confirmed` → `Confirmed` request succeeds as a plain
update. -/
theorem same_status_change_applies_witness :
    update_booking_status_with_availability dbConf "B1" "Confirmed" =
      (true, "Status updated to Confirmed", dbConf) :=
  same_status_change_applies dbConf "B1" bConf (by decide) (by rfl) (by decide)

/-- C9: a status change between two non-reserving statuses updates only the
booking record: it succeeds, leaves the `tee_times` table unchanged, and its
outcome is the same whatever the `tee_times` table contains — the slot table
is neither read nor written. -/
theorem non_reserving_frames_slots (db : DB) (bid ns : String) (b : Booking)
    (hfind : findBooking db bid = some b)
    (hcur : b.status ∉ SLOT_RESERVING_STATUSES)
    (hne : b.status ≠ "")
    (hns : ns ∉ SLOT_RESERVING_STATUSES) :
    (update_booking_status_with_availability db bid ns).1 = true ∧
    (update_booking_status_with_availability db bid ns).2.2.teeTimes = db.teeTimes ∧
    ∀ tts : List TeeTime,
      update_booking_status_with_availability { bookings := db.bookings, teeTimes := tts } bid ns =
        (true, "Status updated to " ++ ns,
         { bookings := (bookingsSetStatus db.bookings bid ns).1, teeTimes := tts }) := by
  have h1 : ns ≠ "Confirmed" := by simp [SLOT_RESERVING_STATUSES] at hns; exact hns.1
  have h3 : b.status ≠ "Confirmed" := by
    simp [SLOT_RESERVING_STATUSES] at hcur; exact hcur.1
  have h4 : b.status ≠ "Booked" := by
    simp [SLOT_RESERVING_STATUSES] at hcur; exact hcur.2
  have key : ∀ tts : List TeeTime,
      update_booking_status_with_availability { bookings := db.bookings, teeTimes := tts } bid ns =
        (true, "Status updated to " ++ ns,
         { bookings := (bookingsSetStatus db.bookings bid ns).1, teeTimes := tts }) := by
    intro tts
    unfold update_booking_status_with_availability
    have hfind' : findBooking { bookings := db.bookings, teeTimes := tts } bid = some b := hfind
    rw [hfind']
    simp [pyTruthyStr, hne, SLOT_RESERVING_STATUSES, h1, h3, h4]
  have hdb : update_booking_status_with_availability db bid ns =
      (true, "Status updated to " ++ ns,
       { bookings := (bookingsSetStatus db.bookings bid ns).1, teeTimes := db.teeTimes }) :=
    key db.teeTimes
  exact ⟨by rw [hdb], by rw [hdb], key⟩

/-- C9 witness: `Requested` → `Rejected` on the fixture state never touches
the slot table. -/
theorem non_reserving_frames_slots_witness :
    (update_booking_status_with_availability dbReq "B1" "Rejected").1 = true ∧
    (update_booking_status_with_availability dbReq "B1" "Rejected").2.2.teeTimes = dbReq.teeTimes ∧
    ∀ tts : List TeeTime,
      update_booking_status_with_availability { bookings := dbReq.bookings, teeTimes := tts } "B1" "Rejected" =
        (true, "Status updated to Rejected",
         { bookings := (bookingsSetStatus dbReq.bookings "B1" "Rejected").1, teeTimes := tts }) :=
  non_reserving_frames_slots dbReq "B1" "Rejected" bReq (by rfl) (by decide) (by decide) (by decide)

lemma find?_key_eq_some {α β : Type} [BEq β] [LawfulBEq β] (key : α → β) {l : List α}
    (hnd : (l.map key).Nodup) {a : α} (ha : a ∈ l) :
    l.find? (fun x => key x == key a) = some a := by
  induction l with
  | nil => cases ha
  | cons h t ih =>
    rw [List.map_cons, List.nodup_cons] at hnd
    rcases List.mem_cons.mp ha with rfl | hat
    · rw [List.find?_cons_of_pos]
      simp
    · by_cases hk : (key h == key a) = true
      · exfalso
        exact hnd.1 (by rw [eq_of_beq hk]; exact List.mem_map_of_mem _ hat)
      · rw [List.find?_cons_of_neg _ (by simp_all)]
        exact ih hnd.2 hat

lemma mem_of_slotFor {db : DB} {b : Booking} {t : TeeTime}
    (h : slotFor db b = some t) : t ∈ db.teeTimes := by
  unfold slotFor findTeeTimeOpt at h
  cases hn : normalizeTimeOpt b.tee_time with
  | none => rw [hn] at h; cases h
  | some s =>
    rw [hn] at h
    exact List.mem_of_find?_eq_some h

lemma release_booking_slot_reserving (db : DB) (bid ns : String) (b : Booking) (t : TeeTime)
    (hfind : findBooking db bid = some b)
    (hres : b.status ∈ SLOT_RESERVING_STATUSES)
    (hslot : slotFor db b = some t) :
    release_booking_slot db bid ns =
      (true, "Slot released! "
          ++ toString (min (t.available_slots + pyOrInt b.players 1) t.max_players)
          ++ " spots now available.",
       { bookings := (bookingsSetStatus db.bookings bid ns).1,
         teeTimes := incrementTeeTimes db.teeTimes t.id (pyOrInt b.players 1) }) := by
  unfold release_booking_slot
  rw [hfind]
  unfold slotFor at hslot
  simp [hres, hslot, releaseCommit]

/-- C5: on the slot-releasing path, `release_booking_slot` succeeds and the
booking's slot row receives `available_slots = LEAST(available_slots +
players, max_players)` — incremented by the booking's player count but never
above `max_players` — and its `is_available` flag is set to true. -/
theorem release_increments_clamped (db : DB) (bid ns : String) (b : Booking) (t : TeeTime)
    (hwf : WF db)
    (hfind : findBooking db bid = some b)
    (hres : b.status ∈ SLOT_RESERVING_STATUSES)
    (hslot : slotFor db b = some t) :
    (release_booking_slot db bid ns).1 = true ∧
    ∃ t', ((release_booking_slot db bid ns).2.2.teeTimes.find? (fun x => x.id == t.id)) = some t' ∧
      t'.available_slots = min (t.available_slots + bookingCount b) t.max_players ∧
      t'.available_slots ≤ t.max_players ∧ t'.is_available = true := by
  have hrel := release_booking_slot_reserving db bid ns b t hfind hres hslot
  rw [hrel]
  refine ⟨rfl, ?_⟩
  have hfix : ∀ x : TeeTime,
      ((if x.id == t.id then
          { x with available_slots := min (x.available_slots + pyOrInt b.players 1) x.max_players,
                   is_available := true } else x).id == t.id) = (x.id == t.id) := by
    intro x
    by_cases h : (x.id == t.id) = true <;> simp [h]
  have hfind2 : (incrementTeeTimes db.teeTimes t.id (pyOrInt b.players 1)).find?
        (fun x => x.id == t.id)
      = some { t with available_slots := min (t.available_slots + pyOrInt b.players 1) t.max_players,
                      is_available := true } := by
    unfold incrementTeeTimes
    rw [find?_map_key _ _ hfix]
    have hft := find?_key_eq_some (fun x : TeeTime => x.id) hwf.2.1 (mem_of_slotFor hslot)
    rw [hft]
    simp
  exact ⟨_, hfind2, rfl, min_le_right _ _, rfl⟩

lemma ite_zero_self (x : Int) : (if x = 0 then 0 else x) = x := by
  split <;> simp_all

lemma can_confirm_booking_none (db : DB) (bid : String)
    (hfb : findBooking db bid = none) :
    can_confirm_booking db bid = (false, "Booking not found", none) := by
  unfold can_confirm_booking; rw [hfb]

lemma can_confirm_booking_not_expected (db : DB) (bid : String) (b : Booking)
    (hfb : findBooking db bid = some b)
    (h1 : b.status ∉ SLOT_RESERVING_STATUSES)
    (h2 : b.status ∉ confirmExpected) :
    can_confirm_booking db bid =
      (false, "Cannot confirm booking with status " ++ b.status, none) := by
  unfold can_confirm_booking; rw [hfb]; simp [h1, h2]

lemma can_confirm_booking_no_datetime (db : DB) (bid : String) (b : Booking)
    (hfb : findBooking db bid = some b)
    (h1 : b.status ∉ SLOT_RESERVING_STATUSES)
    (h2 : b.status ∈ confirmExpected)
    (h3 : pyTruthyStr b.date = false ∨ pyTruthyStr b.tee_time = false) :
    can_confirm_booking db bid = (false, "Booking has no date or time set", none) := by
  unfold can_confirm_booking; rw [hfb]
  rcases h3 with h3 | h3 <;> simp [h1, h2, h3]

lemma can_confirm_booking_checked (db : DB) (bid : String) (b : Booking)
    (hfb : findBooking db bid = some b)
    (h1 : b.status ∉ SLOT_RESERVING_STATUSES)
    (h2 : b.status ∈ confirmExpected)
    (h3 : pyTruthyStr b.date = true)
    (h4 : pyTruthyStr b.tee_time = true) :
    can_confirm_booking db bid =
      (let availability := check_slot_availability db (b.date.getD "") (b.tee_time.getD "")
         (pyOrInt b.players 1) (pyOrStr b.club DEFAULT_COURSE_ID)
       if availability.can_accommodate then
         (true, "Slot available - " ++ toString availability.available_slots
           ++ " spots remaining", some availability)
       else if availability.tee_time_id = none then
         (false, "Tee time slot does not exist in system", some availability)
       else
         (false, "Only " ++ toString availability.available_slots
           ++ " spots available, need " ++ toString (pyOrInt b.players 1),
          some availability)) := by
  unfold can_confirm_booking; rw [hfb]; simp [h1, h2, h3, h4]

lemma check_slot_availability_found (db : DB) (d s : String) (p : Int) (club : String)
    (t : TeeTime) (hft : findTeeTime db.teeTimes club d (normalize_time s) = some t) :
    check_slot_availability db d s p club =
      { available := t.is_available && decide (0 < t.available_slots),
        available_slots := t.available_slots,
        max_players := if t.max_players = 0 then 4 else t.max_players,
        can_accommodate := t.is_available && decide (p ≤ t.available_slots),
        tee_time_id := some t.id,
        requested_players := p } := by
  unfold check_slot_availability
  dsimp only
  rw [hft]
  simp [ite_zero_self]

lemma check_slot_availability_notfound (db : DB) (d s : String) (p : Int) (club : String)
    (hft : findTeeTime db.teeTimes club d (normalize_time s) = none) :
    check_slot_availability db d s p club =
      { available := false, available_slots := 0, max_players := 0,
        can_accommodate := false, tee_time_id := none, requested_players := 1 } := by
  unfold check_slot_availability
  dsimp only
  rw [hft]

lemma confirmTxn_commit (db : DB) (bid : String) (tid : Option Nat) (p snap : Int)
    (h1 : (updateBookingsStatusIn db.bookings bid "Confirmed" confirmExpected).2 ≠ 0)
    (h2 : (decrementTeeTimes db.teeTimes tid p).2 ≠ 0) :
    confirmTxn db bid tid p snap =
      (true, "Booking confirmed! " ++ toString (snap - p) ++ " spots remaining for this time.",
       { bookings := (updateBookingsStatusIn db.bookings bid "Confirmed" confirmExpected).1,
         teeTimes := (decrementTeeTimes db.teeTimes tid p).1 }) := by
  unfold confirmTxn
  simp [h1, h2]

lemma confirmTxn_fail_booking (db : DB) (bid : String) (tid : Option Nat) (p snap : Int)
    (h1 : (updateBookingsStatusIn db.bookings bid "Confirmed" confirmExpected).2 = 0) :
    confirmTxn db bid tid p snap = (false, bookingNoMatchMsg, db) := by
  unfold confirmTxn
  simp [h1]

lemma confirmTxn_fail_slot (db : DB) (bid : String) (tid : Option Nat) (p snap : Int)
    (h1 : (updateBookingsStatusIn db.bookings bid "Confirmed" confirmExpected).2 ≠ 0)
    (h2 : (decrementTeeTimes db.teeTimes tid p).2 = 0) :
    confirmTxn db bid tid p snap = (false, slotRaceMsg, db) := by
  unfold confirmTxn
  simp [h1, h2]

lemma can_confirm_booking_success (db : DB) (bid : String)
    (h : (can_confirm_booking db bid).1 = true) :
    ∃ b t, findBooking db bid = some b ∧ b.status ∈ confirmExpected ∧
      b.status ∉ SLOT_RESERVING_STATUSES ∧
      slotFor db b = some t ∧ t.is_available = true ∧
      bookingCount b ≤ t.available_slots ∧
      can_confirm_booking db bid =
        (true, "Slot available - " ++ toString t.available_slots ++ " spots remaining",
         some { available := t.is_available && decide (0 < t.available_slots),
                available_slots := t.available_slots,
                max_players := if t.max_players = 0 then 4 else t.max_players,
                can_accommodate := true,
                tee_time_id := some t.id,
                requested_players := bookingCount b }) := by
  cases hfb : findBooking db bid with
  | none => rw [can_confirm_booking_none db bid hfb] at h; cases h
  | some b =>
    by_cases h1 : b.status ∈ SLOT_RESERVING_STATUSES
    · rw [can_confirm_booking_reserving db bid b hfb h1] at h; cases h
    · by_cases h2 : b.status ∈ confirmExpected
      · by_cases h3 : pyTruthyStr b.date = true
        · by_cases h4 : pyTruthyStr b.tee_time = true
          · have heq := can_confirm_booking_checked db bid b hfb h1 h2 h3 h4
            cases hd : b.date with
            | none => rw [hd] at h3; exact absurd h3 (by simp [pyTruthyStr])
            | some d =>
            cases htm : b.tee_time with
            | none => rw [htm] at h4; exact absurd h4 (by simp [pyTruthyStr])
            | some s =>
            rw [hd, htm] at heq
            simp only [Option.getD_some] at heq
            cases hft : findTeeTime db.teeTimes (pyOrStr b.club DEFAULT_COURSE_ID) d
                (normalize_time s) with
            | none =>
              rw [check_slot_availability_notfound db d s _ _ hft] at heq
              rw [heq] at h
              simp at h
            | some t =>
              rw [check_slot_availability_found db d s _ _ t hft] at heq
              by_cases hacc :
                  (t.is_available && decide (pyOrInt b.players 1 ≤ t.available_slots)) = true
              · have hacc2 := hacc
                simp only [Bool.and_eq_true, decide_eq_true_eq] at hacc2
                obtain ⟨hia, hle⟩ := hacc2
                refine ⟨b, t, rfl, h2, h1, ?_, hia, hle, ?_⟩
                · simp [slotFor, findTeeTimeOpt, normalizeTimeOpt, normalizeDateOpt, hd, htm]
                  exact hft
                · rw [heq]
                  simp [hacc, bookingCount, hia, hle]
              · rw [heq] at h
                simp [hacc] at h
          · exact absurd (can_confirm_booking_no_datetime db bid b hfb h1 h2
              (Or.inr (by simpa using h4))) (by intro he; rw [he] at h; cases h)
        · exact absurd (can_confirm_booking_no_datetime db bid b hfb h1 h2
            (Or.inl (by simpa using h3))) (by intro he; rw [he] at h; cases h)
      · rw [can_confirm_booking_not_expected db bid b hfb h1 h2] at h; cases h

lemma confirmTxn_fail (db : DB) (bid : String) (tid : Option Nat) (p snap : Int)
    (h : (confirmTxn db bid tid p snap).1 = false) :
    (confirmTxn db bid tid p snap).2.2 = db := by
  by_cases h1 : (updateBookingsStatusIn db.bookings bid "Confirmed" confirmExpected).2 = 0
  · rw [confirmTxn_fail_booking db bid tid p snap h1]
  · by_cases h2 : (decrementTeeTimes db.teeTimes tid p).2 = 0
    · rw [confirmTxn_fail_slot db bid tid p snap h1 h2]
    · rw [confirmTxn_commit db bid tid p snap h1 h2] at h
      cases h

lemma bool_not_true_eq_false {b : Bool} (h : ¬b = true) : b = false := by
  revert h; cases b <;> simp

lemma confirm_booking_fail (db : DB) (bid : String)
    (h : (confirm_booking db bid).1 = false) :
    (confirm_booking db bid).2.2 = db := by
  unfold confirm_booking at h ⊢
  by_cases hcc : (can_confirm_booking db bid).1 = true
  · simp only [hcc, Bool.not_true, Bool.false_eq_true, if_false] at h ⊢
    exact confirmTxn_fail db bid _ _ _ h
  · have hcc' : (can_confirm_booking db bid).1 = false := bool_not_true_eq_false hcc
    simp only [hcc', Bool.not_false, if_true]

lemma confirm_booking_success (db : DB) (bid : String)
    (h : (confirm_booking db bid).1 = true) :
    ∃ b t, findBooking db bid = some b ∧ b.status ∈ confirmExpected ∧
      slotFor db b = some t ∧ t.is_available = true ∧
      bookingCount b ≤ t.available_slots ∧
      confirm_booking db bid =
        (true, "Booking confirmed! " ++ toString (t.available_slots - bookingCount b)
          ++ " spots remaining for this time.",
         { bookings := (updateBookingsStatusIn db.bookings bid "Confirmed" confirmExpected).1,
           teeTimes := (decrementTeeTimes db.teeTimes (some t.id) (bookingCount b)).1 }) := by
  have hcc : (can_confirm_booking db bid).1 = true := by
    by_contra hcc
    rw [confirm_booking_of_cannot db bid (bool_not_true_eq_false hcc)] at h
    cases h
  obtain ⟨b, t, hfb, hexp, hnres, hslot, hia, hle, heq⟩ :=
    can_confirm_booking_success db bid hcc
  have hbid : (b.booking_id == bid) = true := by
    simpa using List.find?_some hfb
  have hn1 : (updateBookingsStatusIn db.bookings bid "Confirmed" confirmExpected).2 ≠ 0 := by
    unfold updateBookingsStatusIn
    exact filter_length_ne_zero (List.mem_of_find?_eq_some hfb) (by simp [hbid, hexp])
  have hn2 : (decrementTeeTimes db.teeTimes (some t.id) (bookingCount b)).2 ≠ 0 := by
    unfold decrementTeeTimes
    exact filter_length_ne_zero (mem_of_slotFor hslot) (by simp [hle])
  have hcb : confirm_booking db bid =
      confirmTxn db bid (some t.id) (bookingCount b) t.available_slots := by
    unfold confirm_booking
    rw [heq]
    rfl
  refine ⟨b, t, hfb, hexp, hslot, hia, hle, ?_⟩
  rw [hcb, confirmTxn_commit db bid _ _ _ hn1 hn2]

/-- C2: the reserving transition is all-or-nothing.  When `confirm_booking`
fails, the state it returns is exactly the entry state (both writes rolled
back, the booking status untouched); when it succeeds, the booking is
`Confirmed` and its slot row is decremented in the same committed state.  At
the transaction level, any failure — in particular a failed capacity guard —
rolls the write-time state back unchanged. -/
theorem confirm_atomic (db : DB) (bid : String) (hwf : WF db) :
    ((confirm_booking db bid).1 = false → (confirm_booking db bid).2.2 = db) ∧
    ((confirm_booking db bid).1 = true →
      ∃ b t, findBooking db bid = some b ∧ slotFor db b = some t ∧
        findBooking (confirm_booking db bid).2.2 bid = some { b with status := "Confirmed" } ∧
        (confirm_booking db bid).2.2.teeTimes.find? (fun x => x.id == t.id) =
          some { t with available_slots := t.available_slots - bookingCount b,
                        is_available := !(decide (t.available_slots - bookingCount b ≤ 0)) }) ∧
    (∀ (tid : Option Nat) (p snap : Int), (confirmTxn db bid tid p snap).1 = false →
      (confirmTxn db bid tid p snap).2.2 = db) := by
  refine ⟨confirm_booking_fail db bid, ?_, fun tid p snap => confirmTxn_fail db bid tid p snap⟩
  intro h
  obtain ⟨b, t, hfb, hexp, hslot, hia, hle, heq⟩ := confirm_booking_success db bid h
  have hbid : (b.booking_id == bid) = true := by simpa using List.find?_some hfb
  refine ⟨b, t, hfb, hslot, ?_, ?_⟩
  · rw [heq]
    show ((updateBookingsStatusIn db.bookings bid "Confirmed" confirmExpected).1.find?
      (fun x => x.booking_id == bid)) = _
    unfold updateBookingsStatusIn
    rw [find?_map_key _ _ (fun x => by split <;> rfl)]
    have hfb' : db.bookings.find? (fun x => x.booking_id == bid) = some b := hfb
    rw [hfb']
    have hbid2 : b.booking_id = bid := by simpa using hbid
    simp [hbid2, hexp]
  · rw [heq]
    show ((decrementTeeTimes db.teeTimes (some t.id) (bookingCount b)).1.find?
      (fun x => x.id == t.id)) = _
    unfold decrementTeeTimes
    rw [find?_map_key _ _ (fun x => by split <;> rfl)]
    have hft := find?_key_eq_some (fun x : TeeTime => x.id) hwf.2.1 (mem_of_slotFor hslot)
    rw [hft]
    simp [hle]

/-- C2 witness: a confirm attempt against insufficient capacity leaves the
state unchanged. -/
theorem confirm_atomic_witness :
    ((confirm_booking dbTight "B1").1 = false → (confirm_booking dbTight "B1").2.2 = dbTight) ∧
    ((confirm_booking dbTight "B1").1 = true →
      ∃ b t, findBooking dbTight "B1" = some b ∧ slotFor dbTight b = some t ∧
        findBooking (confirm_booking dbTight "B1").2.2 "B1" =
          some { b with status := "Confirmed" } ∧
        (confirm_booking dbTight "B1").2.2.teeTimes.find? (fun x => x.id == t.id) =
          some { t with available_slots := t.available_slots - bookingCount b,
                        is_available := !(decide (t.available_slots - bookingCount b ≤ 0)) }) ∧
    (∀ (tid : Option Nat) (p snap : Int), (confirmTxn dbTight "B1" tid p snap).1 = false →
      (confirmTxn dbTight "B1" tid p snap).2.2 = dbTight) :=
  confirm_atomic dbTight "B1" (by decide)

/-- C1: the confirm decrement is a single guarded conditional update.  Every
slot row after `confirm_booking` is either unchanged or was decremented by
exactly the booking's player count under the guard `available_slots ≥
count`; nonnegative availability is preserved; when no row satisfies the
guard at the moment of the write, the transaction reports the
insufficient-capacity error and leaves the state unchanged; and the
transaction can only succeed if some row satisfied the guard. -/
theorem confirm_capacity_guard (db : DB) (bid : String) (tid : Option Nat) (p snap : Int)
    (hnn : ∀ t ∈ db.teeTimes, 0 ≤ t.available_slots) :
    (∀ t' ∈ (confirm_booking db bid).2.2.teeTimes, ∃ t ∈ db.teeTimes, t.id = t'.id ∧
      (t' = t ∨ (confirmPlayers db bid ≤ t.available_slots ∧
        t'.available_slots = t.available_slots - confirmPlayers db bid))) ∧
    (∀ t' ∈ (confirm_booking db bid).2.2.teeTimes, 0 ≤ t'.available_slots) ∧
    ((∀ t ∈ db.teeTimes, tid = some t.id → t.available_slots < p) →
      (updateBookingsStatusIn db.bookings bid "Confirmed" confirmExpected).2 ≠ 0 →
      confirmTxn db bid tid p snap = (false, slotRaceMsg, db)) ∧
    ((confirmTxn db bid tid p snap).1 = true →
      ∃ t ∈ db.teeTimes, tid = some t.id ∧ p ≤ t.available_slots) := by
  have hmain : ∀ t' ∈ (confirm_booking db bid).2.2.teeTimes, ∃ t ∈ db.teeTimes,
      t.id = t'.id ∧ (t' = t ∨ (confirmPlayers db bid ≤ t.available_slots ∧
        t'.available_slots = t.available_slots - confirmPlayers db bid)) := by
    cases hcb : (confirm_booking db bid).1 with
    | false =>
      intro t' ht'
      rw [confirm_booking_fail db bid hcb] at ht'
      exact ⟨t', ht', rfl, Or.inl rfl⟩
    | true =>
      obtain ⟨b, t0, hfb, hexp, hslot, hia, hle, heq⟩ := confirm_booking_success db bid hcb
      have hcp : confirmPlayers db bid = bookingCount b := by
        unfold confirmPlayers; rw [hfb]
      intro t' ht'
      rw [heq] at ht'
      unfold decrementTeeTimes at ht'
      simp only [List.mem_map] at ht'
      obtain ⟨x, hx, hxe⟩ := ht'
      subst hxe
      by_cases hcond : (x.id == t0.id && decide (bookingCount b ≤ x.available_slots)) = true
      · rw [if_pos hcond]
        have hcond2 := hcond
        simp only [Bool.and_eq_true, beq_iff_eq, decide_eq_true_eq] at hcond2
        exact ⟨x, hx, rfl, Or.inr ⟨by rw [hcp]; exact hcond2.2, by rw [hcp]⟩⟩
      · rw [if_neg hcond]
        exact ⟨x, hx, rfl, Or.inl rfl⟩
  refine ⟨hmain, ?_, ?_, ?_⟩
  · intro t' ht'
    obtain ⟨t, ht, hid, hcase⟩ := hmain t' ht'
    rcases hcase with rfl | ⟨hge, he⟩
    · exact hnn t' ht
    · rw [he]
      exact sub_nonneg.mpr hge
  · intro hlt hn1
    apply confirmTxn_fail_slot db bid tid p snap hn1
    cases tid with
    | none => rfl
    | some i =>
      unfold decrementTeeTimes
      simp only [List.length_eq_zero, List.filter_eq_nil_iff]
      intro x hx
      simp only [Bool.and_eq_true, beq_iff_eq, decide_eq_true_eq, not_and]
      intro hxi hple
      exact absurd hple (not_le.mpr (hlt x hx (by rw [hxi])))
  · intro ht
    by_cases h1 : (updateBookingsStatusIn db.bookings bid "Confirmed" confirmExpected).2 = 0
    · rw [confirmTxn_fail_booking db bid tid p snap h1] at ht; cases ht
    · by_cases h2 : (decrementTeeTimes db.teeTimes tid p).2 = 0
      · rw [confirmTxn_fail_slot db bid tid p snap h1 h2] at ht; cases ht
      · cases tid with
        | none => exact absurd rfl h2
        | some i =>
          unfold decrementTeeTimes at h2
          dsimp only at h2
          rw [List.length_eq_zero, List.filter_eq_nil_iff] at h2
          push_neg at h2
          obtain ⟨x, hx, hpx⟩ := h2
          simp only [Bool.and_eq_true, beq_iff_eq, decide_eq_true_eq] at hpx
          exact ⟨x, hx, by rw [hpx.1], hpx.2⟩

lemma confirm_success_state (db : DB) (bid : String)
    (h : (confirm_booking db bid).1 = true) :
    ∃ b t, findBooking db bid = some b ∧ b.status ∈ confirmExpected ∧
      slotFor db b = some t ∧ t.is_available = true ∧
      bookingCount b ≤ t.available_slots ∧
      findBooking (confirm_booking db bid).2.2 bid = some { b with status := "Confirmed" } ∧
      (confirm_booking db bid).2.2.teeTimes =
        (decrementTeeTimes db.teeTimes (some t.id) (bookingCount b)).1 ∧
      (confirm_booking db bid).2.2.bookings =
        (updateBookingsStatusIn db.bookings bid "Confirmed" confirmExpected).1 := by
  obtain ⟨b, t, hfb, hexp, hslot, hia, hle, heq⟩ := confirm_booking_success db bid h
  have hbid : (b.booking_id == bid) = true := by simpa using List.find?_some hfb
  refine ⟨b, t, hfb, hexp, hslot, hia, hle, ?_, by rw [heq], by rw [heq]⟩
  rw [heq]
  show ((updateBookingsStatusIn db.bookings bid "Confirmed" confirmExpected).1.find?
    (fun x => x.booking_id == bid)) = _
  unfold updateBookingsStatusIn
  rw [find?_map_key _ _ (fun x => by split <;> rfl)]
  have hfb' : db.bookings.find? (fun x => x.booking_id == bid) = some b := hfb
  rw [hfb']
  have hbid2 : b.booking_id = bid := by simpa using hbid
  simp [hbid2, hexp]

/-- C6: round trip.  For a booking whose slot has `available_slots ≤
max_players`, a successful `confirm_booking` followed by
`release_booking_slot` restores the `tee_times` table — in particular the
slot's `available_slots` — exactly to its pre-confirm value. -/
theorem confirm_release_round_trip (db : DB) (bid ns : String) (b : Booking) (t : TeeTime)
    (hwf : WF db)
    (hfb : findBooking db bid = some b)
    (hslot : slotFor db b = some t)
    (hle : t.available_slots ≤ t.max_players)
    (hok : (confirm_booking db bid).1 = true) :
    (release_booking_slot (confirm_booking db bid).2.2 bid ns).1 = true ∧
    (release_booking_slot (confirm_booking db bid).2.2 bid ns).2.2.teeTimes = db.teeTimes := by
  obtain ⟨b0, t0, hfb0, hexp0, hslot0, hia0, hle0, hfb1, htts1, hbs1⟩ :=
    confirm_success_state db bid hok
  have hb0 : b0 = b := by
    rw [hfb] at hfb0; exact (Option.some.inj hfb0).symm
  subst hb0
  have ht0 : t0 = t := by
    rw [hslot] at hslot0; exact (Option.some.inj hslot0).symm
  subst ht0
  set db1 := (confirm_booking db bid).2.2 with hdb1
  set c := bookingCount b0 with hc
  set g : TeeTime → TeeTime := fun x =>
    if x.id == t0.id && decide (c ≤ x.available_slots) then
      { x with available_slots := x.available_slots - c,
               is_available := !(decide (x.available_slots - c ≤ 0)) }
    else x with hg
  have htts1' : db1.teeTimes = db.teeTimes.map g := htts1
  have hslot1 : slotFor db1 { b0 with status := "Confirmed" } = some (g t0) := by
    cases hn : normalizeTimeOpt b0.tee_time with
    | none =>
      exfalso
      unfold slotFor findTeeTimeOpt at hslot0
      rw [hn] at hslot0
      cases hslot0
    | some s =>
      have hkey2 : List.find? (fun x => x.club == pyOrStr b0.club DEFAULT_COURSE_ID
          && x.date == normalizeDateOpt b0.date && x.time == s) db.teeTimes = some t0 := by
        have hk := hslot0
        unfold slotFor at hk
        rw [hn] at hk
        simpa [findTeeTimeOpt, findTeeTime] using hk
      show findTeeTimeOpt db1.teeTimes (pyOrStr b0.club DEFAULT_COURSE_ID)
        (normalizeDateOpt b0.date) (normalizeTimeOpt b0.tee_time) = some (g t0)
      rw [hn]
      simp only [findTeeTimeOpt, findTeeTime]
      rw [htts1', find?_map_key g _ (fun x => by simp only [hg]; split <;> rfl), hkey2]
      rfl
  have hrel := release_booking_slot_reserving db1 bid ns { b0 with status := "Confirmed" }
    (g t0) hfb1 (by simp [SLOT_RESERVING_STATUSES]) hslot1
  constructor
  · rw [hrel]
  · rw [hrel]
    show incrementTeeTimes db1.teeTimes (g t0).id (pyOrInt b0.players 1) = db.teeTimes
    have hgid : (g t0).id = t0.id := by simp only [hg]; split <;> rfl
    rw [hgid, htts1']
    unfold incrementTeeTimes
    rw [List.map_map]
    apply map_id_of_fix
    intro x hx
    have hcomp : (((fun y : TeeTime => if y.id == t0.id then
        { y with available_slots := min (y.available_slots + pyOrInt b0.players 1) y.max_players,
                 is_available := true } else y) ∘ g) x) =
        (if (g x).id == t0.id then
          { g x with
            available_slots := min ((g x).available_slots + pyOrInt b0.players 1) ((g x).max_players),
            is_available := true } else g x) := rfl
    rw [hcomp]
    by_cases hxid : x.id = t0.id
    · have hxt : x = t0 := List.inj_on_of_nodup_map hwf.2.1 hx (mem_of_slotFor hslot0) hxid
      subst hxt
      have hgx : g x = { x with available_slots := x.available_slots - c,
                                is_available := !(decide (x.available_slots - c ≤ 0)) } := by
        simp only [hg]
        rw [if_pos (by simp [hle0])]
      rw [hgx]
      rw [if_pos (by simp)]
      have hcp : pyOrInt b0.players 1 = c := rfl
      have h1 : x.available_slots - c + c = x.available_slots := by ring
      simp only [hcp, h1]
      rw [min_eq_left hle, ← hia0]
    · have hgx : g x = x := by
        simp only [hg]
        rw [if_neg (by simp [hxid])]
      rw [hgx, if_neg (by simp [hxid])]

lemma find?_decrement (tts : List TeeTime) (t : TeeTime) (c : Int)
    (hnd : (tts.map (fun x => x.id)).Nodup) (hmem : t ∈ tts)
    (hc : c ≤ t.available_slots) :
    (decrementTeeTimes tts (some t.id) c).1.find? (fun x => x.id == t.id) =
      some { t with available_slots := t.available_slots - c,
                    is_available := !(decide (t.available_slots - c ≤ 0)) } := by
  unfold decrementTeeTimes
  show ((tts.map _).find? _) = _
  rw [find?_map_key _ _ (fun x => by split <;> rfl)]
  have hft := find?_key_eq_some (fun x : TeeTime => x.id) hnd hmem
  rw [hft]
  simp [hc]

lemma find?_increment (tts : List TeeTime) (t : TeeTime) (c : Int)
    (hnd : (tts.map (fun x => x.id)).Nodup) (hmem : t ∈ tts) :
    (incrementTeeTimes tts t.id c).find? (fun x => x.id == t.id) =
      some { t with available_slots := min (t.available_slots + c) t.max_players,
                    is_available := true } := by
  unfold incrementTeeTimes
  rw [find?_map_key _ _ (fun x => by split <;> rfl)]
  have hft := find?_key_eq_some (fun x : TeeTime => x.id) hnd hmem
  rw [hft]
  simp

lemma find?_setStatus (bs : List Booking) (bid ns : String) (b : Booking)
    (hfb : bs.find? (fun x => x.booking_id == bid) = some b) :
    (bookingsSetStatus bs bid ns).1.find? (fun x => x.booking_id == bid) =
      some { b with status := ns } := by
  unfold bookingsSetStatus
  show ((bs.map _).find? _) = _
  rw [find?_map_key _ _ (fun x => by split <;> rfl)]
  have hb : b.booking_id = bid := by simpa using List.find?_some hfb
  rw [hfb]
  simp [hb]

lemma release_booking_slot_nonreserving (db : DB) (bid ns : String) (b : Booking)
    (hfb : findBooking db bid = some b)
    (hres : b.status ∉ SLOT_RESERVING_STATUSES) :
    release_booking_slot db bid ns =
      (true, "Status changed to " ++ ns,
       { db with bookings := (bookingsSetStatus db.bookings bid ns).1 }) := by
  unfold release_booking_slot
  rw [hfb]
  simp [hres]

lemma release_booking_slot_noslot (db : DB) (bid ns : String) (b : Booking)
    (hfb : findBooking db bid = some b)
    (hres : b.status ∈ SLOT_RESERVING_STATUSES)
    (hslot : slotFor db b = none) :
    release_booking_slot db bid ns =
      (true, "Status changed to " ++ ns ++ " (no tee time record to update)",
       { db with bookings := (bookingsSetStatus db.bookings bid ns).1 }) := by
  unfold release_booking_slot
  rw [hfb]
  unfold slotFor at hslot
  simp [hres, hslot]

/-- C10: a booking whose `players` field is null consumes exactly one
capacity unit: its count is read as 1, a successful confirm decrements its
slot by exactly 1, and a release increments it by exactly 1 (clamped). -/
theorem null_players_counts_one (db : DB) (bid ns : String) (b : Booking)
    (hwf : WF db)
    (hfb : findBooking db bid = some b)
    (hnull : b.players = none) :
    bookingCount b = 1 ∧
    ((confirm_booking db bid).1 = true →
      ∃ t ∈ db.teeTimes,
        (confirm_booking db bid).2.2.teeTimes.find? (fun x => x.id == t.id) =
          some { t with available_slots := t.available_slots - 1,
                        is_available := !(decide (t.available_slots - 1 ≤ 0)) }) ∧
    (b.status ∈ SLOT_RESERVING_STATUSES → ∀ t, slotFor db b = some t →
      (release_booking_slot db bid ns).1 = true ∧
      (release_booking_slot db bid ns).2.2.teeTimes.find? (fun x => x.id == t.id) =
        some { t with available_slots := min (t.available_slots + 1) t.max_players,
                      is_available := true }) := by
  have h1 : bookingCount b = 1 := by unfold bookingCount; rw [hnull]; rfl
  refine ⟨h1, ?_, ?_⟩
  · intro hok
    obtain ⟨b0, t0, hfb0, hexp0, hslot0, hia0, hle0, hfb1, htts1, hbs1⟩ :=
      confirm_success_state db bid hok
    have hb0 : b0 = b := by rw [hfb] at hfb0; exact (Option.some.inj hfb0).symm
    subst hb0
    refine ⟨t0, mem_of_slotFor hslot0, ?_⟩
    rw [htts1, h1]
    rw [h1] at hle0
    exact find?_decrement db.teeTimes t0 1 hwf.2.1 (mem_of_slotFor hslot0) hle0
  · intro hres t hslot
    have hrel := release_booking_slot_reserving db bid ns b t hfb hres hslot
    constructor
    · rw [hrel]
    · rw [hrel]
      show (incrementTeeTimes db.teeTimes t.id (pyOrInt b.players 1)).find? _ = _
      have hcnt : pyOrInt b.players 1 = 1 := h1
      rw [hcnt]
      exact find?_increment db.teeTimes t 1 hwf.2.1 (mem_of_slotFor hslot)

/-- C10 witness: releasing the null-players `Confirmed` fixture booking
increments its slot by exactly one. -/
theorem null_players_counts_one_witness :
    bookingCount bNull = 1 ∧
    ((confirm_booking dbNull "B1").1 = true →
      ∃ t ∈ dbNull.teeTimes,
        (confirm_booking dbNull "B1").2.2.teeTimes.find? (fun x => x.id == t.id) =
          some { t with available_slots := t.available_slots - 1,
                        is_available := !(decide (t.available_slots - 1 ≤ 0)) }) ∧
    (bNull.status ∈ SLOT_RESERVING_STATUSES → ∀ t, slotFor dbNull bNull = some t →
      (release_booking_slot dbNull "B1" "Cancelled").1 = true ∧
      (release_booking_slot dbNull "B1" "Cancelled").2.2.teeTimes.find? (fun x => x.id == t.id) =
        some { t with available_slots := min (t.available_slots + 1) t.max_players,
                      is_available := true }) :=
  null_players_counts_one dbNull "B1" "Cancelled" bNull (by decide) (by rfl) (by rfl)

/-- C4 (amended): only the confirm path's booking status write is
conditional on the prior status — it matches no row unless some booking row
is in an expected prior status, and then the transaction reports the
no-match error and changes nothing.  The release-path and plain-path status
writes are unconditional: for a booking in any current status whatsoever,
`release_booking_slot` succeeds and overwrites the status, and the plain
path of `update_booking_status_with_availability` succeeds and overwrites
the status; neither can report a lost race. -/
theorem status_write_guard_only_confirm (db : DB) (bid ns : String) (b : Booking)
    (tid : Option Nat) (p snap : Int)
    (hfb : findBooking db bid = some b) (hne : b.status ≠ "") :
    ((∀ x ∈ db.bookings, ¬(x.booking_id = bid ∧ x.status ∈ confirmExpected)) →
      confirmTxn db bid tid p snap = (false, bookingNoMatchMsg, db)) ∧
    ((release_booking_slot db bid ns).1 = true ∧
      ∃ b', findBooking (release_booking_slot db bid ns).2.2 bid = some b' ∧
        b'.status = ns) ∧
    ((b.status ∈ SLOT_RESERVING_STATUSES → ns ∈ SLOT_RESERVING_STATUSES) →
      ¬(ns = "Confirmed" ∧ b.status ∉ SLOT_RESERVING_STATUSES) →
      update_booking_status_with_availability db bid ns =
        (true, "Status updated to " ++ ns,
         { db with bookings := (bookingsSetStatus db.bookings bid ns).1 })) := by
  refine ⟨?_, ?_, ?_⟩
  · intro hno
    apply confirmTxn_fail_booking
    unfold updateBookingsStatusIn
    show (db.bookings.filter _).length = 0
    rw [List.length_eq_zero, List.filter_eq_nil_iff]
    intro x hx
    have := hno x hx
    simp only [Bool.and_eq_true, beq_iff_eq, not_and]
    intro hxid
    intro hmem
    exact this ⟨hxid, by simpa using hmem⟩
  · by_cases hres : b.status ∈ SLOT_RESERVING_STATUSES
    · cases hsl : slotFor db b with
      | none =>
        rw [release_booking_slot_noslot db bid ns b hfb hres hsl]
        exact ⟨rfl, _, find?_setStatus db.bookings bid ns b hfb, rfl⟩
      | some t =>
        rw [release_booking_slot_reserving db bid ns b t hfb hres hsl]
        exact ⟨rfl, _, find?_setStatus db.bookings bid ns b hfb, rfl⟩
    · rw [release_booking_slot_nonreserving db bid ns b hfb hres]
      exact ⟨rfl, _, find?_setStatus db.bookings bid ns b hfb, rfl⟩
  · intro h1 h2
    have hc1 : (ns == "Confirmed" && !(SLOT_RESERVING_STATUSES.contains b.status)) = false := by
      by_cases h : ns = "Confirmed"
      · have hbs : b.status ∈ SLOT_RESERVING_STATUSES := by
          by_contra hq
          exact h2 ⟨h, hq⟩
        simp [h, hbs]
      · simp [h]
    have hc2 : (SLOT_RESERVING_STATUSES.contains b.status
        && !(SLOT_RESERVING_STATUSES.contains ns)) = false := by
      by_cases h : b.status ∈ SLOT_RESERVING_STATUSES
      · simp [h, h1 h]
      · simp [h]
    unfold update_booking_status_with_availability
    rw [hfb]
    simp [pyTruthyStr, hne, hc1, hc2]
    rw [if_neg h2, if_neg (fun hx => hx.2 (h1 hx.1))]

lemma slotFor_eq_find (db : DB) (b : Booking) :
    slotFor db b = db.teeTimes.find? (fun t => bookingMatchesSlot b t) := by
  unfold slotFor findTeeTimeOpt bookingMatchesSlot
  cases hn : normalizeTimeOpt b.tee_time with
  | none =>
    dsimp only
    symm
    rw [List.find?_eq_none]
    intro x hx
    simp only [Bool.and_eq_true]
    rintro ⟨-, h⟩
    exact Bool.false_ne_true h
  | some s =>
    dsimp only
    unfold findTeeTime
    congr 1
    funext t
    rw [Bool.eq_iff_iff]
    simp only [Bool.and_eq_true, beq_iff_eq]
    constructor
    · rintro ⟨⟨hc, hd⟩, ht⟩
      exact ⟨⟨hc.symm, hd.symm⟩, by rw [ht]⟩
    · rintro ⟨⟨hc, hd⟩, ht⟩
      exact ⟨⟨hc.symm, hd.symm⟩, (Option.some.inj ht).symm⟩

lemma reservingWeight_key (t t' : TeeTime) (hc : t.club = t'.club) (hd : t.date = t'.date)
    (hti : t.time = t'.time) (b : Booking) :
    reservingWeight t b = reservingWeight t' b := by
  unfold reservingWeight bookingMatchesSlot
  rw [hc, hd, hti]

lemma reservingWeight_zero_of_nonreserving (t : TeeTime) (b : Booking)
    (h : b.status ∉ SLOT_RESERVING_STATUSES) : reservingWeight t b = 0 := by
  unfold reservingWeight
  simp [h]

lemma reservingWeight_zero_of_nomatch (t : TeeTime) (b : Booking)
    (h : bookingMatchesSlot b t = false) : reservingWeight t b = 0 := by
  unfold reservingWeight
  simp [h]

lemma reservingWeight_of_match (t : TeeTime) (b : Booking)
    (h1 : b.status ∈ SLOT_RESERVING_STATUSES) (h2 : bookingMatchesSlot b t = true) :
    reservingWeight t b = bookingCount b := by
  unfold reservingWeight
  simp [h1, h2]

lemma reservingWeight_nonneg (t : TeeTime) (b : Booking) (h : 1 ≤ bookingCount b) :
    0 ≤ reservingWeight t b := by
  unfold reservingWeight
  split
  · omega
  · rfl

lemma weight_le_reservedSum (bs : List Booking) (t : TeeTime) (b : Booking)
    (hb : b ∈ bs) (hpos : ∀ x ∈ bs, 1 ≤ bookingCount x) :
    reservingWeight t b ≤ reservedSum bs t := by
  unfold reservedSum
  apply List.single_le_sum
  · intro x hx
    simp only [List.mem_map] at hx
    obtain ⟨y, hy, rfl⟩ := hx
    exact reservingWeight_nonneg t y (hpos y hy)
  · exact List.mem_map_of_mem _ hb

lemma reservedSum_map (t : TeeTime) (bs : List Booking) (g : Booking → Booking)
    (bid : String) (b : Booking)
    (hg : ∀ x, (x.booking_id == bid) = false → g x = x)
    (hnd : (bs.map (fun x => x.booking_id)).Nodup)
    (hfb : bs.find? (fun x => x.booking_id == bid) = some b) :
    reservedSum (bs.map g) t =
      reservedSum bs t - reservingWeight t b + reservingWeight t (g b) := by
  induction bs with
  | nil => cases hfb
  | cons h tl ih =>
    rw [List.map_cons, List.nodup_cons] at hnd
    by_cases hh : (h.booking_id == bid) = true
    · rw [@List.find?_cons_of_pos _ (fun x => x.booking_id == bid) h tl hh] at hfb
      have hb : h = b := Option.some.inj hfb
      subst hb
      have htl : tl.map g = tl := by
        apply map_id_of_fix
        intro x hx
        cases hxid : (x.booking_id == bid) with
        | true =>
          exfalso
          have hxx : x.booking_id = bid := by simpa using hxid
          have hhid : h.booking_id = bid := by simpa using hh
          exact hnd.1 (by rw [hhid, ← hxx]; exact List.mem_map_of_mem _ hx)
        | false => exact hg x hxid
      unfold reservedSum
      rw [List.map_cons, List.map_cons, List.map_cons, htl, List.sum_cons, List.sum_cons]
      ring
    · rw [@List.find?_cons_of_neg _ (fun x => x.booking_id == bid) h tl hh] at hfb
      have hgh : g h = h := hg h (by revert hh; cases (h.booking_id == bid) <;> simp)
      have ihh := ih hnd.2 hfb
      unfold reservedSum at ihh ⊢
      rw [List.map_cons, List.map_cons, List.map_cons, hgh, List.sum_cons, List.sum_cons, ihh]
      ring

lemma reservedSum_setStatus (bs : List Booking) (bid ns : String) (b : Booking) (t : TeeTime)
    (hnd : (bs.map (fun x => x.booking_id)).Nodup)
    (hfb : bs.find? (fun x => x.booking_id == bid) = some b) :
    reservedSum (bookingsSetStatus bs bid ns).1 t =
      reservedSum bs t - reservingWeight t b + reservingWeight t { b with status := ns } := by
  have hb : (b.booking_id == bid) = true := by simpa using List.find?_some hfb
  have hres := reservedSum_map t bs
    (fun x => if x.booking_id == bid then { x with status := ns } else x) bid b
    (fun x hx => by dsimp only; rw [if_neg (by simp_all)]) hnd hfb
  have hgb : (fun x : Booking => if x.booking_id == bid then { x with status := ns } else x) b
      = { b with status := ns } := by
    dsimp only
    rw [if_pos hb]
  rw [hgb] at hres
  exact hres

lemma reservedSum_statusIn (bs : List Booking) (bid : String) (b : Booking) (t : TeeTime)
    (hnd : (bs.map (fun x => x.booking_id)).Nodup)
    (hfb : bs.find? (fun x => x.booking_id == bid) = some b)
    (hexp : b.status ∈ confirmExpected) :
    reservedSum (updateBookingsStatusIn bs bid "Confirmed" confirmExpected).1 t =
      reservedSum bs t - reservingWeight t b
        + reservingWeight t { b with status := "Confirmed" } := by
  have hb : (b.booking_id == bid) = true := by simpa using List.find?_some hfb
  have hres := reservedSum_map t bs
    (fun x => if x.booking_id == bid && confirmExpected.contains x.status then
      { x with status := "Confirmed" } else x) bid b
    (fun x hx => by dsimp only; rw [if_neg (by simp_all)]) hnd hfb
  have hgb : (fun x : Booking => if x.booking_id == bid && confirmExpected.contains x.status then
      { x with status := "Confirmed" } else x) b = { b with status := "Confirmed" } := by
    dsimp only
    rw [if_pos (by simp [hb, hexp])]
  rw [hgb] at hres
  exact hres

lemma slot_match_unique (db : DB) (b : Booking) (t0 x : TeeTime)
    (hwfk : (db.teeTimes.map (fun t => (t.club, t.date, t.time))).Nodup)
    (hfind : slotFor db b = some t0)
    (hx : x ∈ db.teeTimes) (hm : bookingMatchesSlot b x = true) : x = t0 := by
  rw [slotFor_eq_find] at hfind
  have hm0 : bookingMatchesSlot b t0 = true := List.find?_some hfind
  have ht0m : t0 ∈ db.teeTimes := List.mem_of_find?_eq_some hfind
  apply List.inj_on_of_nodup_map hwfk hx ht0m
  unfold bookingMatchesSlot at hm hm0
  simp only [Bool.and_eq_true, beq_iff_eq] at hm hm0
  obtain ⟨⟨hc, hd⟩, ht⟩ := hm
  obtain ⟨⟨hc0, hd0⟩, ht0'⟩ := hm0
  have hceq : x.club = t0.club := hc.symm.trans hc0
  have hdeq : x.date = t0.date := hd.symm.trans hd0
  have hteq : x.time = t0.time := Option.some.inj (ht.symm.trans ht0')
  rw [hceq, hdeq, hteq]

lemma conservation_confirm (db : DB) (bid : String)
    (hwf : WF db) (hinv : ConservationInv db) :
    ConservationInv (confirm_booking db bid).2.2 := by
  cases hc : (confirm_booking db bid).1 with
  | false =>
    rw [confirm_booking_fail db bid hc]
    exact hinv
  | true =>
    obtain ⟨b, t0, hfb, hexp, hslot, hia, hle, hfb1, htts1, hbs1⟩ :=
      confirm_success_state db bid hc
    have hnres : b.status ∉ SLOT_RESERVING_STATUSES := by
      have h2 := hexp
      simp only [confirmExpected, List.mem_cons, List.not_mem_nil, or_false] at h2
      rcases h2 with h | h | h <;> simp [SLOT_RESERVING_STATUSES, h]
    have hm0 : bookingMatchesSlot b t0 = true := by
      have hsf := hslot
      rw [slotFor_eq_find] at hsf
      exact List.find?_some hsf
    intro t' ht'
    rw [htts1] at ht'
    rw [hbs1]
    unfold decrementTeeTimes at ht'
    simp only [List.mem_map] at ht'
    obtain ⟨x, hx, rfl⟩ := ht'
    have hsum := reservedSum_statusIn db.bookings bid b x hwf.1 hfb hexp
    have hwb : reservingWeight x b = 0 := reservingWeight_zero_of_nonreserving x b hnres
    have hIx := hinv x hx
    by_cases hmx : bookingMatchesSlot b x = true
    · have hxt0 : x = t0 := slot_match_unique db b t0 x hwf.2.2 hslot hx hmx
      subst hxt0
      have hcond : (x.id == x.id && decide (bookingCount b ≤ x.available_slots)) = true := by
        simp [hle]
      rw [if_pos hcond]
      have hrs : reservedSum ((updateBookingsStatusIn db.bookings bid "Confirmed"
          confirmExpected).1)
          { x with available_slots := x.available_slots - bookingCount b,
                   is_available := !(decide (x.available_slots - bookingCount b ≤ 0)) } =
          reservedSum ((updateBookingsStatusIn db.bookings bid "Confirmed"
            confirmExpected).1) x := rfl
      have hwc : reservingWeight x { b with status := "Confirmed" } = bookingCount b := by
        apply reservingWeight_of_match
        · simp [SLOT_RESERVING_STATUSES]
        · exact hmx
      dsimp only
      rw [hrs, hsum, hwb, hwc]
      omega
    · have hmx' : bookingMatchesSlot b x = false := bool_not_true_eq_false hmx
      have hwc : reservingWeight x { b with status := "Confirmed" } = 0 :=
        reservingWeight_zero_of_nomatch x _ hmx'
      have hcond : (x.id == t0.id && decide (bookingCount b ≤ x.available_slots)) = false := by
        by_cases hid : x.id = t0.id
        · exfalso
          have hxe : x = t0 := List.inj_on_of_nodup_map hwf.2.1 hx (mem_of_slotFor hslot) hid
          rw [hxe] at hmx
          exact hmx hm0
        · simp [hid]
      rw [if_neg (by simp [hcond])]
      rw [hsum, hwb, hwc]
      omega

lemma conservation_release (db : DB) (bid ns : String)
    (hwf : WF db) (hpos : ∀ x ∈ db.bookings, 1 ≤ bookingCount x)
    (hinv : ConservationInv db)
    (hns : ns ∉ SLOT_RESERVING_STATUSES) :
    ConservationInv (release_booking_slot db bid ns).2.2 := by
  cases hfb : findBooking db bid with
  | none =>
    unfold release_booking_slot
    rw [hfb]
    exact hinv
  | some b =>
    by_cases hres : b.status ∈ SLOT_RESERVING_STATUSES
    · cases hsl : slotFor db b with
      | none =>
        rw [release_booking_slot_noslot db bid ns b hfb hres hsl]
        intro t ht
        have hnom : ∀ x ∈ db.teeTimes, bookingMatchesSlot b x = false := by
          have hsl2 := hsl
          rw [slotFor_eq_find] at hsl2
          rw [List.find?_eq_none] at hsl2
          intro x hx
          exact bool_not_true_eq_false (hsl2 x hx)
        have hsum := reservedSum_setStatus db.bookings bid ns b t hwf.1 hfb
        have hwb : reservingWeight t b = 0 :=
          reservingWeight_zero_of_nomatch t b (hnom t ht)
        have hwn : reservingWeight t { b with status := ns } = 0 :=
          reservingWeight_zero_of_nomatch t _ (hnom t ht)
        have hIt := hinv t ht
        show t.available_slots = t.max_players - reservedSum (bookingsSetStatus db.bookings bid ns).1 t
        rw [hsum, hwb, hwn]
        omega
      | some t0 =>
        rw [release_booking_slot_reserving db bid ns b t0 hfb hres hsl]
        intro t' ht'
        unfold incrementTeeTimes at ht'
        simp only [List.mem_map] at ht'
        obtain ⟨x, hx, rfl⟩ := ht'
        have hsum := reservedSum_setStatus db.bookings bid ns b x hwf.1 hfb
        have hwn : reservingWeight x { b with status := ns } = 0 :=
          reservingWeight_zero_of_nonreserving x _ hns
        have hIx := hinv x hx
        have hbc : pyOrInt b.players 1 = bookingCount b := rfl
        by_cases hmx : bookingMatchesSlot b x = true
        · have hxt0 : x = t0 := slot_match_unique db b t0 x hwf.2.2 hsl hx hmx
          subst hxt0
          have hwb : reservingWeight x b = bookingCount b :=
            reservingWeight_of_match x b hres hmx
          have hub : reservingWeight x b ≤ reservedSum db.bookings x :=
            weight_le_reservedSum db.bookings x b (List.mem_of_find?_eq_some hfb) hpos
          rw [hwb] at hub
          rw [if_pos (by simp)]
          have hrs : reservedSum (bookingsSetStatus db.bookings bid ns).1
              { x with available_slots := min (x.available_slots + pyOrInt b.players 1) x.max_players,
                       is_available := true } =
              reservedSum (bookingsSetStatus db.bookings bid ns).1 x := rfl
          dsimp only
          rw [hrs, hsum, hwb, hwn, hbc]
          have hminv : min (x.available_slots + bookingCount b) x.max_players
              = x.available_slots + bookingCount b := min_eq_left (by omega)
          rw [hminv]
          omega
        · have hmx' : bookingMatchesSlot b x = false := bool_not_true_eq_false hmx
          have hwb : reservingWeight x b = 0 := reservingWeight_zero_of_nomatch x b hmx'
          have hcond : (x.id == t0.id) = false := by
            by_cases hid : x.id = t0.id
            · exfalso
              have hxe : x = t0 := List.inj_on_of_nodup_map hwf.2.1 hx (mem_of_slotFor hsl) hid
              rw [hxe] at hmx
              have hm0 : bookingMatchesSlot b t0 = true := by
                have hsf := hsl
                rw [slotFor_eq_find] at hsf
                exact List.find?_some hsf
              exact hmx hm0
            · simp [hid]
          rw [if_neg (by simp [hcond])]
          rw [hsum, hwb, hwn]
          omega
    · rw [release_booking_slot_nonreserving db bid ns b hfb hres]
      intro t ht
      have hsum := reservedSum_setStatus db.bookings bid ns b t hwf.1 hfb
      have hwb : reservingWeight t b = 0 := reservingWeight_zero_of_nonreserving t b hres
      have hwn : reservingWeight t { b with status := ns } = 0 :=
        reservingWeight_zero_of_nonreserving t _ hns
      have hIt := hinv t ht
      show t.available_slots = t.max_players - reservedSum (bookingsSetStatus db.bookings bid ns).1 t
      rw [hsum, hwb, hwn]
      omega

lemma conservation_plain (db : DB) (bid ns : String) (b : Booking)
    (hwf : WF db) (hinv : ConservationInv db)
    (hfb : findBooking db bid = some b)
    (hiff : b.status ∈ SLOT_RESERVING_STATUSES ↔ ns ∈ SLOT_RESERVING_STATUSES) :
    ConservationInv { db with bookings := (bookingsSetStatus db.bookings bid ns).1 } := by
  intro t ht
  have hsum := reservedSum_setStatus db.bookings bid ns b t hwf.1 hfb
  have hw : reservingWeight t { b with status := ns } = reservingWeight t b := by
    have hmE : bookingMatchesSlot { b with status := ns } t = bookingMatchesSlot b t := rfl
    have hcE : bookingCount { b with status := ns } = bookingCount b := rfl
    have hbb : SLOT_RESERVING_STATUSES.contains ns = SLOT_RESERVING_STATUSES.contains b.status := by
      rw [Bool.eq_iff_iff]
      constructor
      · intro h
        have hm : ns ∈ SLOT_RESERVING_STATUSES := by simpa using h
        simpa using hiff.mpr hm
      · intro h
        have hm : b.status ∈ SLOT_RESERVING_STATUSES := by simpa using h
        simpa using hiff.mp hm
    unfold reservingWeight
    rw [hmE, hcE]
    dsimp only
    rw [hbb]
  have hIt := hinv t ht
  show t.available_slots = t.max_players - reservedSum (bookingsSetStatus db.bookings bid ns).1 t
  rw [hsum, hw]
  omega

/-- C3 (amended): the conservation invariant `available_slots = max_players
− Σ players of reserving bookings on the slot` is preserved by
`confirm_booking`, by `release_booking_slot` whenever the target status is
non-reserving, and by `update_booking_status_with_availability` except when
it moves a booking that is not currently reserving directly to `Booked` —
that plain status change touches no slot row and breaks the invariant. -/
theorem conservation_invariant_ops (db : DB) (bid ns : String)
    (hwf : WF db) (hpos : ∀ x ∈ db.bookings, 1 ≤ bookingCount x)
    (hinv : ConservationInv db) :
    ConservationInv (confirm_booking db bid).2.2 ∧
    (ns ∉ SLOT_RESERVING_STATUSES → ConservationInv (release_booking_slot db bid ns).2.2) ∧
    ((∀ b, findBooking db bid = some b → ns = "Booked" → b.status ∈ SLOT_RESERVING_STATUSES) →
      ConservationInv (update_booking_status_with_availability db bid ns).2.2) := by
  refine ⟨conservation_confirm db bid hwf hinv,
    fun hns => conservation_release db bid ns hwf hpos hinv hns, ?_⟩
  intro hguard
  cases hfb : findBooking db bid with
  | none =>
    unfold update_booking_status_with_availability
    rw [hfb]
    simp [pyTruthyStr]
    exact hinv
  | some b =>
    by_cases hne : b.status = ""
    · unfold update_booking_status_with_availability
      rw [hfb]
      simp [pyTruthyStr, hne]
      exact hinv
    · by_cases h1 : ns = "Confirmed" ∧ b.status ∉ SLOT_RESERVING_STATUSES
      · have hroute : update_booking_status_with_availability db bid ns = confirm_booking db bid := by
          unfold update_booking_status_with_availability
          rw [hfb]
          simp [pyTruthyStr, hne]
          intro h
          exact absurd (h h1.1) h1.2
        rw [hroute]
        exact conservation_confirm db bid hwf hinv
      · by_cases h2 : b.status ∈ SLOT_RESERVING_STATUSES ∧ ns ∉ SLOT_RESERVING_STATUSES
        · have hroute : update_booking_status_with_availability db bid ns =
              release_booking_slot db bid ns := by
            unfold update_booking_status_with_availability
            rw [hfb]
            simp [pyTruthyStr, hne]
            rw [if_neg h1, if_pos h2]
          rw [hroute]
          exact conservation_release db bid ns hwf hpos hinv h2.2
        · have hiff : b.status ∈ SLOT_RESERVING_STATUSES ↔ ns ∈ SLOT_RESERVING_STATUSES := by
            constructor
            · intro hcur
              by_contra hnsr
              exact h2 ⟨hcur, hnsr⟩
            · intro hnsr
              have hcb : ns = "Confirmed" ∨ ns = "Booked" := by
                simpa [SLOT_RESERVING_STATUSES] using hnsr
              rcases hcb with h | h
              · by_contra hcur
                exact h1 ⟨h, hcur⟩
              · exact hguard b hfb h
          have hroute : update_booking_status_with_availability db bid ns =
              (true, "Status updated to " ++ ns,
               { db with bookings := (bookingsSetStatus db.bookings bid ns).1 }) := by
            unfold update_booking_status_with_availability
            rw [hfb]
            simp [pyTruthyStr, hne]
            rw [if_neg h1, if_neg h2]
          rw [hroute]
          exact conservation_plain db bid ns b hwf hinv hfb hiff

/-- C4 counterexample: the release-path write phase applied at a write-time
state where the booking is already back in `Requested` (not a reserving
status, hence not an expected prior status for a release) still overwrites
the status and increments the slot a second time, reporting success rather
than a no-match — the unconditional booking update of the source. -/
theorem release_status_write_unconditional_cex :
    bDup.status ∉ SLOT_RESERVING_STATUSES ∧
    releaseCommit dbDup "B1" "Cancelled" 7 2 2 4 =
      (true, "Slot released! 4 spots now available.",
       { bookings := [{ bDup with status := "Cancelled" }],
         teeTimes := [{ tHalf with available_slots := 4 }] }) :=
  ⟨by decide, by rfl⟩

/-- C3 counterexample: from a state satisfying the invariant, moving a
`Requested` booking straight to `Booked` commits successfully as a plain
status update with no slot decrement, and the invariant fails afterwards. -/
theorem conservation_broken_on_booked_cex :
    ConservationInv dbReq ∧
    update_booking_status_with_availability dbReq "B1" "Booked" =
      (true, "Status updated to Booked",
       { dbReq with bookings := [{ bReq with status := "Booked" }] }) ∧
    ¬ ConservationInv (update_booking_status_with_availability dbReq "B1" "Booked").2.2 :=
  ⟨by decide, by rfl, by decide⟩

/-- C3 witness: the three preserved operations on the §8 scenario state. -/
theorem conservation_invariant_ops_witness :
    ConservationInv (confirm_booking dbReq "B1").2.2 ∧
    ("Cancelled" ∉ SLOT_RESERVING_STATUSES →
      ConservationInv (release_booking_slot dbReq "B1" "Cancelled").2.2) ∧
    ((∀ b, findBooking dbReq "B1" = some b → "Cancelled" = "Booked" →
        b.status ∈ SLOT_RESERVING_STATUSES) →
      ConservationInv (update_booking_status_with_availability dbReq "B1" "Cancelled").2.2) :=
  conservation_invariant_ops dbReq "B1" "Cancelled" (by decide) (by decide) (by decide)

/-- C1 witness: with 2 slots open and 3 requested, the guard fails, the
error is reported, and nothing changes. -/
theorem confirm_capacity_guard_witness :
    (∀ t' ∈ (confirm_booking dbTight "B1").2.2.teeTimes, ∃ t ∈ dbTight.teeTimes,
      t.id = t'.id ∧ (t' = t ∨ (confirmPlayers dbTight "B1" ≤ t.available_slots ∧
        t'.available_slots = t.available_slots - confirmPlayers dbTight "B1"))) ∧
    (∀ t' ∈ (confirm_booking dbTight "B1").2.2.teeTimes, 0 ≤ t'.available_slots) ∧
    ((∀ t ∈ dbTight.teeTimes, some 7 = some t.id → t.available_slots < 3) →
      (updateBookingsStatusIn dbTight.bookings "B1" "Confirmed" confirmExpected).2 ≠ 0 →
      confirmTxn dbTight "B1" (some 7) 3 2 = (false, slotRaceMsg, dbTight)) ∧
    ((confirmTxn dbTight "B1" (some 7) 3 2).1 = true →
      ∃ t ∈ dbTight.teeTimes, some 7 = some t.id ∧ 3 ≤ t.available_slots) :=
  confirm_capacity_guard dbTight "B1" (some 7) 3 2 (by decide)

/-- C5 witness: releasing the `Confirmed` fixture booking clamps 1 + 3 to
the 4-player ceiling and re-opens the slot. -/
theorem release_increments_clamped_witness :
    (release_booking_slot dbConf "B1" "Cancelled").1 = true ∧
    ∃ t', ((release_booking_slot dbConf "B1" "Cancelled").2.2.teeTimes.find?
        (fun x => x.id == tConf.id)) = some t' ∧
      t'.available_slots = min (tConf.available_slots + bookingCount bConf) tConf.max_players ∧
      t'.available_slots ≤ tConf.max_players ∧ t'.is_available = true :=
  release_increments_clamped dbConf "B1" "Cancelled" bConf tConf (by decide) (by rfl)
    (by decide) (by rfl)

/-- C6 witness: confirm then release on the §8 scenario restores the slot
table exactly. -/
theorem confirm_release_round_trip_witness :
    (release_booking_slot (confirm_booking dbReq "B1").2.2 "B1" "Requested").1 = true ∧
    (release_booking_slot (confirm_booking dbReq "B1").2.2 "B1" "Requested").2.2.teeTimes =
      dbReq.teeTimes :=
  confirm_release_round_trip dbReq "B1" "Requested" bReq tOpen (by decide) (by rfl) (by rfl)
    (by decide) (by rfl)

/-- C4 witness: the three write paths instantiated on the fixture state. -/
theorem status_write_guard_only_confirm_witness :
    ((∀ x ∈ dbReq.bookings, ¬(x.booking_id = "B1" ∧ x.status ∈ confirmExpected)) →
      confirmTxn dbReq "B1" (some 7) 3 4 = (false, bookingNoMatchMsg, dbReq)) ∧
    ((release_booking_slot dbReq "B1" "Pending").1 = true ∧
      ∃ b', findBooking (release_booking_slot dbReq "B1" "Pending").2.2 "B1" = some b' ∧
        b'.status = "Pending") ∧
    ((bReq.status ∈ SLOT_RESERVING_STATUSES → "Pending" ∈ SLOT_RESERVING_STATUSES) →
      ¬("Pending" = "Confirmed" ∧ bReq.status ∉ SLOT_RESERVING_STATUSES) →
      update_booking_status_with_availability dbReq "B1" "Pending" =
        (true, "Status updated to " ++ "Pending",
         { dbReq with bookings := (bookingsSetStatus dbReq.bookings "B1" "Pending").1 })) :=
  status_write_guard_only_confirm dbReq "B1" "Pending" bReq (some 7) 3 4 (by rfl) (by decide)
